import Mathlib

/-!
Verification development for the `br_citation_network_cs` repository.

The repository collects citation relationships from two external APIs
(OpenCitations and OpenAlex), assembles them into directed citation graphs
partitioned by research sub-area, and performs consistency checks.

This file gives a shallow embedding of the relevant Python code:

* `src/extraction_open_citations.py` — DOI extraction, reference/citation
  edge collection, per-publication processing, edge deduplication;
* `src/generate_citation_graph.py` — partitioning the edge list into
  per-sub-area directed graphs;
* `src/verify_data.py` — bidirectional-pair detection;
* `src/data_collection_open_alex_selenium.py` and
  `src/extraction_open_alex_selenium.py` — pagination arithmetic and raw
  record normalisation (`parse_results`).

Network I/O is modelled by passing the (abstract) API response as an
explicit argument; a Python exception raised by a modelled operation is
an `Option.none` result.
-/

/-! ## Python string primitives

Python `str.split()` (no argument) splits on runs of ASCII whitespace and
`str.strip()` removes it from both ends.  Python's whitespace set for these
operations is  space, `\t`, `\n`, `\r`, `\x0b`, `\x0c`  (plus Unicode
spaces, which no input in this development uses).
-/

/-- ASCII whitespace as recognised by Python `str.split()` / `str.strip()`. -/
def pyIsSpace (c : Char) : Bool :=
  c = ' ' || c = '\t' || c = '\n' || c = '\r' || c = Char.ofNat 11 || c = Char.ofNat 12

/-- Python `str.strip()` on a character list: drop whitespace at both ends. -/
def pyStripL (l : List Char) : List Char :=
  ((l.dropWhile pyIsSpace).reverse.dropWhile pyIsSpace).reverse

/-- Python `str.strip()` on strings. -/
def pyStrip (s : String) : String :=
  String.mk (pyStripL s.toList)

/-- Helper for `pySplitWsL`: `acc` holds the (reversed) current token. -/
def pySplitWsAux : List Char → List Char → List (List Char)
  | [], acc => if acc.isEmpty then [] else [acc.reverse]
  | c :: cs, acc =>
    if pyIsSpace c then
      if acc.isEmpty then pySplitWsAux cs [] else acc.reverse :: pySplitWsAux cs []
    else pySplitWsAux cs (c :: acc)

/-- Python `str.split()` with no separator: split on whitespace runs,
discarding empty tokens. -/
def pySplitWsL (l : List Char) : List (List Char) :=
  pySplitWsAux l []

/-- The part of `l` after the first (leftmost) occurrence of `sep`, or
`none` when `sep` does not occur.  Mirrors one step of Python
`str.split(sep)`, which scans left to right, non-overlapping. -/
def afterFirstOcc (sep : List Char) : List Char → Option (List Char)
  | [] => none
  | c :: cs =>
    if sep.isPrefixOf (c :: cs) then some ((c :: cs).drop sep.length)
    else afterFirstOcc sep cs

/-- Fuel-indexed worker for `afterLastOcc`.  For a non-empty `sep` each
successful `afterFirstOcc` strictly shortens the list, so fuel `l.length`
is always sufficient. -/
def afterLastAux (sep : List Char) : Nat → List Char → List Char
  | 0, l => l
  | fuel + 1, l =>
    match afterFirstOcc sep l with
    | none => l
    | some rest => afterLastAux sep fuel rest

/-- Python `s.split(sep)[-1]`: the segment after the last non-overlapping
occurrence of `sep`, or `l` itself when `sep` does not occur. -/
def afterLastOcc (sep l : List Char) : List Char :=
  afterLastAux sep l.length l

/-- Lower-casing of a character list (Python `str.lower()` on ASCII data). -/
def lowerL (l : List Char) : List Char :=
  l.map Char.toLower

/-- Does `sep` occur (contiguously) inside `l`? -/
def containsSeq (sep : List Char) : List Char → Bool
  | [] => sep.isPrefixOf ([] : List Char)
  | c :: cs => sep.isPrefixOf (c :: cs) || containsSeq sep cs

/-! ## `extraction_open_citations.py`: DOI extraction -/

/-- The `doi:` scheme marker. -/
def doiMarker : List Char := ['d', 'o', 'i', ':']

/-- The DOI resolver URL marker `https://doi.org/`. -/
def urlMarker : List Char := "https://doi.org/".toList

/-- The regex search `re.search(r"doi:(\S+)", s, re.IGNORECASE)` of
`extract_doi`: scan left to right for a case-insensitive occurrence of
`doi:` that is immediately followed by at least one non-whitespace
character; the returned group is the maximal non-whitespace run after the
marker.  A position where the marker matches but no non-whitespace
character follows is skipped, as the regex engine does. -/
def findDoiMatch : List Char → Option (List Char)
  | [] => none
  | c :: cs =>
    if doiMarker.isPrefixOf (lowerL (c :: cs)) then
      let grp := ((c :: cs).drop 4).takeWhile (fun ch => !pyIsSpace ch)
      if grp.isEmpty then findDoiMatch cs else some grp
    else findDoiMatch cs

/-- `extract_doi` from `extraction_open_citations.py`:

    doi_str = doi_str.strip()
    if doi_str.lower().startswith("https://doi.org/"):
        return doi_str.split("https://doi.org/")[-1]
    match = re.search(r"doi:(\S+)", doi_str, re.IGNORECASE)
    if match:
        return match.group(1)
    return doi_str
-/
def extract_doi (s : String) : String :=
  let t := pyStripL s.toList
  if urlMarker.isPrefixOf (lowerL t) then String.mk (afterLastOcc urlMarker t)
  else
    match findDoiMatch t with
    | some grp => String.mk grp
    | none => String.mk t

/-- The token loop of `extract_dois`: for each token (already stripped by
`split()`, and stripped again by the code), tokens whose lower-casing
starts with `doi:` or `https://doi.org/` contribute
`token.split(marker)[-1].strip()`; other tokens are skipped. -/
def extractDoisTokens : List (List Char) → List (List Char)
  | [] => []
  | tok :: toks =>
    let t := pyStripL tok
    if doiMarker.isPrefixOf (lowerL t) then
      pyStripL (afterLastOcc doiMarker t) :: extractDoisTokens toks
    else if urlMarker.isPrefixOf (lowerL t) then
      pyStripL (afterLastOcc urlMarker t) :: extractDoisTokens toks
    else extractDoisTokens toks

/-- `extract_dois` from `extraction_open_citations.py`:

    tokens = doi_field.split()
    dois = []
    for token in tokens:
        token = token.strip()
        if token.lower().startswith("doi:"):
            dois.append(token.split("doi:")[-1].strip())
        elif token.lower().startswith("https://doi.org/"):
            dois.append(token.split("https://doi.org/")[-1].strip())
    return dois
-/
def extract_dois (s : String) : List String :=
  (extractDoisTokens (pySplitWsL s.toList)).map String.mk

/-- The amended specification of `extract_dois` (for claim C6), written
per token from the spec's words as corrected by the counterexample: the
input is split on whitespace; a token is kept iff its lower-casing begins
with `doi:` or `https://doi.org/`; a kept token is returned as the
whitespace-trimmed text after the last exact-lowercase occurrence of its
marker (in particular the whole token when the marker never occurs in
exact lowercase); tokens without a recognised marker are silently
discarded and the function is total, so no input causes an error. -/
def extractDoisSpec (s : String) : List String :=
  (pySplitWsL s.toList).filterMap (fun t =>
    if doiMarker.isPrefixOf (lowerL t) then
      some (String.mk (pyStripL (afterLastOcc doiMarker t)))
    else if urlMarker.isPrefixOf (lowerL t) then
      some (String.mk (pyStripL (afterLastOcc urlMarker t)))
    else none)

/-! ## `extraction_open_citations.py`: edge collection

An edge is the Python dict
`{"origin_doi": ..., "target_doi": ..., "origin_sub_area": ..., "target_sub_area": ...}`;
the sub-area fields start as `None` and may be filled by `process_doi`.
-/

/-- A citation edge as built by `get_references` / `get_citations`. -/
structure CitEdge where
  origin_doi : String
  target_doi : String
  origin_sub_area : Option String
  target_sub_area : Option String
deriving DecidableEq, Repr

/-- Abstract OpenCitations API response for one references/citations query.

`reqError` models `session.get` raising; `response status parsed` models a
completed HTTP response with the given status code, where `parsed = none`
models `response.json()` raising and `parsed = some records` is the parsed
JSON body.  Each record is modelled by its optional `cited`/`citing`
string field (`none` for a record where the field is absent or null). -/
inductive ApiResponse where
  | reqError : ApiResponse
  | response (status : Nat) (parsed : Option (List (Option String))) : ApiResponse

/-- The inner candidate loop of `get_references`: each extracted candidate
different from `doi` becomes an edge `doi → candidate`; a candidate equal
to `doi` is skipped (self-reference suppression). -/
def refEdgesFromCandidates (doi : String) : List String → List CitEdge
  | [] => []
  | c :: cs =>
    if c ≠ doi then ⟨doi, c, none, none⟩ :: refEdgesFromCandidates doi cs
    else refEdgesFromCandidates doi cs

/-- One record of the references query: `record.get("cited")` is truthy
(present and a non-empty string) or the record is skipped. -/
def refEdgesOfRecord (doi : String) (cited : Option String) : List CitEdge :=
  match cited with
  | none => []
  | some s => if s = "" then [] else refEdgesFromCandidates doi (extract_dois s)

/-- The record loop of `get_references`. -/
def refEdgesOfData (doi : String) : List (Option String) → List CitEdge
  | [] => []
  | r :: rs => refEdgesOfRecord doi r ++ refEdgesOfData doi rs

/-- `get_references` from `extraction_open_citations.py`: a request error
returns `[]`; a non-200 status returns `[]`; a JSON parse error returns
`[]`; otherwise the records are scanned for `cited` candidates. -/
def get_references (doi : String) (resp : ApiResponse) : List CitEdge :=
  match resp with
  | .reqError => []
  | .response status parsed =>
    if status = 200 then
      match parsed with
      | none => []
      | some data => refEdgesOfData doi data
    else []

/-- The inner candidate loop of `get_citations`: each extracted candidate
different from `doi` becomes an edge `candidate → doi`; a candidate equal
to `doi` is skipped (self-citation suppression). -/
def citEdgesFromCandidates (doi : String) : List String → List CitEdge
  | [] => []
  | c :: cs =>
    if c ≠ doi then ⟨c, doi, none, none⟩ :: citEdgesFromCandidates doi cs
    else citEdgesFromCandidates doi cs

/-- One record of the citations query (`record.get("citing")`). -/
def citEdgesOfRecord (doi : String) (citing : Option String) : List CitEdge :=
  match citing with
  | none => []
  | some s => if s = "" then [] else citEdgesFromCandidates doi (extract_dois s)

/-- The record loop of `get_citations`. -/
def citEdgesOfData (doi : String) : List (Option String) → List CitEdge
  | [] => []
  | r :: rs => citEdgesOfRecord doi r ++ citEdgesOfData doi rs

/-- `get_citations` from `extraction_open_citations.py`. -/
def get_citations (doi : String) (resp : ApiResponse) : List CitEdge :=
  match resp with
  | .reqError => []
  | .response status parsed =>
    if status = 200 then
      match parsed with
      | none => []
      | some data => citEdgesOfData doi data
    else []

/-- `edge["origin_sub_area"] = sub_area` of `process_doi`. -/
def setOriginSubArea (sa : String) (e : CitEdge) : CitEdge :=
  { e with origin_sub_area := some sa }

/-- `edge["target_sub_area"] = sub_area` of `process_doi`. -/
def setTargetSubArea (sa : String) (e : CitEdge) : CitEdge :=
  { e with target_sub_area := some sa }

/-- `process_doi` from `extraction_open_citations.py`: tag the reference
edges with the known origin sub-area, the citation edges with the known
target sub-area, and return their concatenation.  It is a total function
of the two responses: every failure mode of the two queries is absorbed
inside `get_references` / `get_citations`, so no exception escapes the
per-publication boundary. -/
def process_doi (doi sub_area : String) (refResp citResp : ApiResponse) : List CitEdge :=
  (get_references doi refResp).map (setOriginSubArea sub_area) ++
    (get_citations doi citResp).map (setTargetSubArea sub_area)

/-- A query "failed" in the sense of the spec: the request raised
(transport error), the status was not 200, or the body failed to parse
as JSON. -/
def queryFailed : ApiResponse → Bool
  | .reqError => true
  | .response status parsed => status != 200 || parsed.isNone

/-- Worker for `drop_duplicates`: keep a row when it has not been seen. -/
def dropDupSeen : List CitEdge → List CitEdge → List CitEdge
  | _, [] => []
  | seen, e :: es =>
    if e ∈ seen then dropDupSeen seen es
    else e :: dropDupSeen (e :: seen) es

/-- `df_edges.drop_duplicates(inplace=True)` of `main`: keep the first
occurrence of each distinct row (full-row equality, i.e. equality of all
four fields of `CitEdge`), preserving order. -/
def drop_duplicates (l : List CitEdge) : List CitEdge :=
  dropDupSeen [] l

/-! ## `generate_citation_graph.py`: sub-area graph partitioning

A `networkx.DiGraph` is modelled by its node list (each node carrying its
`sub_area` attribute) and its edge list; `add_node` appends a fresh node,
`add_edge` inserts an edge if it is not already present (idempotent, as in
networkx).  The script guards each `add_node` with a membership test, and
both endpoints are present before `add_edge` is called, so `add_edge`
never creates nodes.  The per-area dict `graphs` is modelled as a function
from sub-area name to graph.
-/

/-- A directed graph: nodes `(id, sub_area attribute)` in insertion order,
and directed edges `(origin, target)`. -/
structure NxDiGraph where
  nodes : List (String × String)
  edges : List (String × String)
deriving DecidableEq, Repr

/-- `origin_doi not in graphs[area]` membership test. -/
def NxDiGraph.hasNode (g : NxDiGraph) (id : String) : Bool :=
  g.nodes.any (fun p => p.1 == id)

/-- `add_node(id, sub_area=attr)` for a node known to be absent. -/
def NxDiGraph.addNode (g : NxDiGraph) (id attr : String) : NxDiGraph :=
  { g with nodes := g.nodes ++ [(id, attr)] }

/-- `add_edge(o, t)`: insert the directed edge if not already present. -/
def NxDiGraph.addEdge (g : NxDiGraph) (o t : String) : NxDiGraph :=
  if (o, t) ∈ g.edges then g else { g with edges := g.edges ++ [(o, t)] }

/-- The `sub_area` attribute of node `id` (the attribute stored at its
first, and only, insertion). -/
def NxDiGraph.attr (g : NxDiGraph) (id : String) : Option String :=
  (g.nodes.find? (fun p => p.1 == id)).map (fun p => p.2)

/-- One row of the edge-list CSV (raw field values). -/
structure EdgeRow where
  origin_doi : String
  target_doi : String
  origin_sub_area : String
  target_sub_area : String
deriving DecidableEq, Repr

/-- `row[...].strip() if row[...].strip() else "unknown"`. -/
def normArea (s : String) : String :=
  if pyStrip s = "" then "unknown" else pyStrip s

/-- The body of the `for area in qualified_areas` loop for one area: add
the two endpoints (with their sub-area attributes) when absent, then the
edge. -/
def rowUpdate (g : NxDiGraph) (row : EdgeRow) : NxDiGraph :=
  let o := pyStrip row.origin_doi
  let t := pyStrip row.target_doi
  let g1 := if g.hasNode o then g else g.addNode o (normArea row.origin_sub_area)
  let g2 := if g1.hasNode t then g1 else g1.addNode t (normArea row.target_sub_area)
  g2.addEdge o t

/-- Update the graph stored under key `area`, leaving the others alone. -/
def updateArea (gs : String → NxDiGraph) (area : String) (row : EdgeRow) : String → NxDiGraph :=
  fun a => if a = area then rowUpdate (gs area) row else gs a

/-- Processing of one CSV row: compute `qualified_areas` (the set of the
row's two normalised sub-areas that are configured) and run the loop body
once for each qualified area.  A Python set holds each member once, so
when the two sub-areas coincide the body runs once; updates to distinct
keys commute, so iterating origin-then-target realises every iteration
order of the set. -/
def addRow (areas : List String) (gs : String → NxDiGraph) (row : EdgeRow) : String → NxDiGraph :=
  let osa := normArea row.origin_sub_area
  let tsa := normArea row.target_sub_area
  let gs1 := if osa ∈ areas then updateArea gs osa row else gs
  if tsa ∈ areas ∧ tsa ≠ osa then updateArea gs1 tsa row else gs1

/-- `graphs = { area: nx.DiGraph() for area in areas }`: every key starts
at the empty graph (a key outside `areas` is never touched afterwards,
matching a dict that has no entry for it). -/
def emptyGraphs : String → NxDiGraph :=
  fun _ => NxDiGraph.mk [] []

/-- `create_subarea_graphs` from `generate_citation_graph.py`: start from
one empty graph per area and process the CSV rows in order. -/
def create_subarea_graphs (rows : List EdgeRow) (areas : List String) : String → NxDiGraph :=
  rows.foldl (addRow areas) emptyGraphs

/-- The configured sub-area list `AREAS` of `generate_citation_graph.py`. -/
def AREAS : List String :=
  ["ai", "arch", "bio", "chi", "cse", "data", "dbis", "ds", "formal", "graphics",
   "hardware", "ir", "net", "or", "pl", "robotics", "se", "security", "theory", "vision"]

/-! ## `verify_data.py`: bidirectional-pair detection -/

/-- The edge-loading loop of `verify_data.py`: each CSV row contributes
the pair `(origin.strip(), target.strip())` to a set. -/
def loadEdges (rows : List (String × String)) : Finset (String × String) :=
  (rows.map (fun r => (pyStrip r.1, pyStrip r.2))).toFinset

/-- Python's `<` on strings: lexicographic comparison by code point. -/
def pyStrLt : List Char → List Char → Bool
  | [], [] => false
  | [], _ :: _ => true
  | _ :: _, [] => false
  | a :: as, b :: bs =>
    if a.toNat < b.toNat then true
    else if b.toNat < a.toNat then false
    else pyStrLt as bs

/-- Python's `<=` on strings (`s <= t` iff not `t < s`). -/
def pyStrLe (s t : String) : Bool :=
  !(pyStrLt t.toList s.toList)

/-- `tuple(sorted([origin, target]))`: Python's stable two-element sort
swaps exactly when the second string compares below the first. -/
def sortPair (p : String × String) : String × String :=
  if pyStrLe p.1 p.2 then p else (p.2, p.1)

/-- The detection loop of `verify_data.py`: keep the edges whose reverse
is also present, and record each such pair once in sorted canonical form. -/
def twoWayEdges (edges : Finset (String × String)) : Finset (String × String) :=
  (edges.filter (fun e => (e.2, e.1) ∈ edges)).image sortPair

/-- The output of `verify_data.py`: either the found pairs are printed, or
the explicit message `"No two-way citations were detected."` is printed. -/
inductive CheckerReport where
  | found (pairs : Finset (String × String)) : CheckerReport
  | noneFound : CheckerReport
deriving DecidableEq

/-- The final `if two_way_edges: ... else: ...` of `verify_data.py`. -/
def checkerReport (rows : List (String × String)) : CheckerReport :=
  let tw := twoWayEdges (loadEdges rows)
  if tw.Nonempty then .found tw else .noneFound

/-! ## OpenAlex scripts: pagination

`fetch_all_data` (in both Selenium scripts) and `fetch_cited_by` share the
same pagination logic: fetch page 1, read `meta.count` from it
(defaulting to `0` when absent), set
`total_pages = ceil(total_count / per_page) if total_count else 1`, and
then fetch pages `2, ..., total_pages` in ascending order.
-/

/-- `total_pages = ceil(total_count / per_page) if total_count else 1`.
A missing `meta.count` is read as `0` by `.get("count", 0)`, hence also
falls into the default-1 branch. -/
def totalPages (total_count per_page : Nat) : Nat :=
  if total_count = 0 then 1 else (total_count + per_page - 1) / per_page

/-- The sequence of page numbers requested by one paginated fetch: page 1
first, then `range(2, total_pages + 1)` in order. -/
def pagesRequested (total_count per_page : Nat) : List Nat :=
  1 :: List.range' 2 (totalPages total_count per_page - 1)

/-! ## OpenAlex scripts: record normalisation (`parse_results`)

Raw API data is modelled by a small JSON value type.  Each modelled Python
operation that can raise (`AttributeError` on `.get` of a non-dict,
`.removeprefix` of a non-str, iterating a non-iterable) returns `none`.
-/

/-- A parsed JSON value.  Numbers are modelled as integers (no floating
point is involved in the fields the scripts read), and an object is its
key/value list with distinct keys, as produced by `json.loads`. -/
inductive Json where
  | null : Json
  | bool (b : Bool) : Json
  | num (n : Int) : Json
  | str (s : String) : Json
  | arr (elems : List Json) : Json
  | obj (fields : List (String × Json)) : Json

/-- Key lookup in an object's field list. -/
def lookupField : List (String × Json) → String → Option Json
  | [], _ => none
  | (k, v) :: fs, key => if k = key then some v else lookupField fs key

/-- Python `d.get(key, dflt)`: an `AttributeError` (modelled `none`) when
the receiver is not a dict, else the stored value or the default. -/
def pyGet (v : Json) (key : String) (dflt : Json) : Option Json :=
  match v with
  | .obj fields => some ((lookupField fields key).getD dflt)
  | _ => none

/-- Python truthiness of a JSON value. -/
def jsonFalsy : Json → Bool
  | .null => true
  | .bool b => !b
  | .num n => n == 0
  | .str s => s == ""
  | .arr l => l.isEmpty
  | .obj fs => fs.isEmpty

/-- A `.removeprefix` receiver must be a string; anything else raises. -/
def asStr : Json → Option String
  | .str s => some s
  | _ => none

/-- Python `str.removeprefix(pre)`: drop the prefix's characters when the
string starts with it, else return the string unchanged. -/
def removePrefixStr (s pre : String) : String :=
  if pre.toList.isPrefixOf s.toList then String.mk (s.toList.drop pre.toList.length)
  else s

/-- The canonical record built by `parse_results` of
`data_collection_open_alex_selenium.py`.  Fields on which the code calls
no method are stored as raw JSON values, exactly as the Python dict does. -/
structure WorkRecordDC where
  id : String
  doi : String
  title : Json
  subfield_display_name : Json
  referenced_works_count : Json
  referenced_works : Json
  cited_by_api_url : Json

/-- The per-work body of `parse_results` in
`data_collection_open_alex_selenium.py`.  `none` models the loop body
raising on this work record:

    work_id = work.get("id", "").removeprefix("https://openalex.org/")
    doi = (work.get("doi") or "").removeprefix("https://doi.org/")
    title = work.get("title", "")
    primary_topic = work.get("primary_topic", {})
    subfield = primary_topic.get("subfield", {})
    subfield_display_name = subfield.get("display_name", "")
    referenced_works_count = work.get("referenced_works_count", 0)
    referenced_works = work.get("referenced_works", [])
    cited_by_api_url = work.get("cited_by_api_url", "")
-/
def parse_work_dc (work : Json) : Option WorkRecordDC := do
  let idv ← pyGet work "id" (.str "")
  let ids ← asStr idv
  let work_id := removePrefixStr ids "https://openalex.org/"
  let doiv0 ← pyGet work "doi" .null
  let doiv := if jsonFalsy doiv0 then .str "" else doiv0
  let dois ← asStr doiv
  let doi := removePrefixStr dois "https://doi.org/"
  let title ← pyGet work "title" (.str "")
  let primary_topic ← pyGet work "primary_topic" (.obj [])
  let subfield ← pyGet primary_topic "subfield" (.obj [])
  let sdn ← pyGet subfield "display_name" (.str "")
  let rwc ← pyGet work "referenced_works_count" (.num 0)
  let rw ← pyGet work "referenced_works" (.arr [])
  let cbu ← pyGet work "cited_by_api_url" (.str "")
  some ⟨work_id, doi, title, sdn, rwc, rw, cbu⟩

/-- Python iteration of a JSON value: lists yield their elements, strings
their characters (as 1-character strings), dicts their keys; anything
else raises `TypeError`. -/
def pyIter : Json → Option (List Json)
  | .arr l => some l
  | .str s => some (s.toList.map (fun c => .str (String.mk [c])))
  | .obj fs => some (fs.map (fun kv => .str kv.1))
  | _ => none

/-- The list comprehension
`[ref_work.removeprefix("https://openalex.org/") for ref_work in referenced_works]`:
every element must be a string. -/
def stripRefWorks : List Json → Option (List String)
  | [] => some []
  | j :: js => do
    let s ← asStr j
    let rest ← stripRefWorks js
    some (removePrefixStr s "https://openalex.org/" :: rest)

/-- The canonical record built by `parse_results` of
`extraction_open_alex_selenium.py` (this variant also strips the OpenAlex
URL from each referenced work and initialises `cited_by` to `[]`). -/
structure WorkRecordEx where
  id : String
  doi : String
  title : Json
  subfield_display_name : Json
  referenced_works_count : Json
  referenced_works : List String
  cited_by : List String

/-- The per-work body of `parse_results` in
`extraction_open_alex_selenium.py`. -/
def parse_work_ex (work : Json) : Option WorkRecordEx := do
  let idv ← pyGet work "id" (.str "")
  let ids ← asStr idv
  let work_id := removePrefixStr ids "https://openalex.org/"
  let doiv0 ← pyGet work "doi" .null
  let doiv := if jsonFalsy doiv0 then .str "" else doiv0
  let dois ← asStr doiv
  let doi := removePrefixStr dois "https://doi.org/"
  let title ← pyGet work "title" (.str "")
  let primary_topic ← pyGet work "primary_topic" (.obj [])
  let subfield ← pyGet primary_topic "subfield" (.obj [])
  let sdn ← pyGet subfield "display_name" (.str "")
  let rwc ← pyGet work "referenced_works_count" (.num 0)
  let rwv ← pyGet work "referenced_works" (.arr [])
  let rwElems ← pyIter rwv
  let rw ← stripRefWorks rwElems
  some ⟨work_id, doi, title, sdn, rwc, rw, []⟩

/-! ### Typing hypotheses for the amended claim C10

`parse_results` raises on a present-but-wrongly-typed field (e.g.
`primary_topic: null`), so the amended never-raises guarantee is stated
for records whose present fields have the types the code expects.  The
following decidable predicates express exactly those expectations. -/

/-- The value is a JSON string. -/
def isStrJ : Json → Bool
  | .str _ => true
  | _ => false

/-- The value is a JSON object. -/
def isObjJ : Json → Bool
  | .obj _ => true
  | _ => false

/-- An optional field satisfies `p` whenever it is present. -/
def optFieldOk (o : Option Json) (p : Json → Bool) : Bool :=
  match o with
  | none => true
  | some v => p v

/-- A present `primary_topic` must be an object whose `subfield` field,
when present, is an object. -/
def primaryTopicOk : Json → Bool
  | .obj g => optFieldOk (lookupField g "subfield") isObjJ
  | _ => false

/-- A present `referenced_works` must be an array of strings (for the
variant that strips each entry's URL). -/
def refWorksOk : Json → Bool
  | .arr l => l.all isStrJ
  | _ => false

/-- Typing hypotheses under which the `data_collection` variant of
`parse_results` cannot raise: `id` a string if present, `doi` falsy or a
string if present, `primary_topic` well-shaped if present. -/
def wellTypedWorkDC (fs : List (String × Json)) : Bool :=
  optFieldOk (lookupField fs "id") isStrJ &&
    optFieldOk (lookupField fs "doi") (fun v => jsonFalsy v || isStrJ v) &&
    optFieldOk (lookupField fs "primary_topic") primaryTopicOk

/-- Typing hypotheses for the `extraction` variant: additionally
`referenced_works`, if present, is an array of strings. -/
def wellTypedWorkEx (fs : List (String × Json)) : Bool :=
  wellTypedWorkDC fs && optFieldOk (lookupField fs "referenced_works") refWorksOk

/-! # Theorems -/

/-! ## Self-loop suppression (C1) -/

theorem refEdgesFromCandidates_no_self (doi : String) (cs : List String) (e : CitEdge)
    (he : e ∈ refEdgesFromCandidates doi cs) : e.origin_doi ≠ e.target_doi := by
  induction cs with
  | nil => simp [refEdgesFromCandidates] at he
  | cons c cs ih =>
    simp only [refEdgesFromCandidates] at he
    by_cases hc : c ≠ doi
    · rw [if_pos hc] at he
      rcases List.mem_cons.mp he with h | h
      · subst h
        simpa using fun h => hc h.symm
      · exact ih h
    · rw [if_neg hc] at he
      exact ih he

theorem citEdgesFromCandidates_no_self (doi : String) (cs : List String) (e : CitEdge)
    (he : e ∈ citEdgesFromCandidates doi cs) : e.origin_doi ≠ e.target_doi := by
  induction cs with
  | nil => simp [citEdgesFromCandidates] at he
  | cons c cs ih =>
    simp only [citEdgesFromCandidates] at he
    by_cases hc : c ≠ doi
    · rw [if_pos hc] at he
      rcases List.mem_cons.mp he with h | h
      · subst h
        simpa using hc
      · exact ih h
    · rw [if_neg hc] at he
      exact ih he

theorem get_references_no_self (doi : String) (resp : ApiResponse) (e : CitEdge)
    (he : e ∈ get_references doi resp) : e.origin_doi ≠ e.target_doi := by
  cases resp with
  | reqError => simp [get_references] at he
  | response status parsed =>
    simp only [get_references] at he
    by_cases hs : status = 200
    · rw [if_pos hs] at he
      cases parsed with
      | none => simp at he
      | some data =>
        simp only at he
        induction data with
        | nil => simp [refEdgesOfData] at he
        | cons r rs ih =>
          simp only [refEdgesOfData, List.mem_append] at he
          rcases he with h | h
          · cases r with
            | none => simp [refEdgesOfRecord] at h
            | some s =>
              simp only [refEdgesOfRecord] at h
              by_cases hse : s = ""
              · simp [hse] at h
              · rw [if_neg hse] at h
                exact refEdgesFromCandidates_no_self doi _ e h
          · exact ih h
    · rw [if_neg hs] at he
      simp at he

theorem get_citations_no_self (doi : String) (resp : ApiResponse) (e : CitEdge)
    (he : e ∈ get_citations doi resp) : e.origin_doi ≠ e.target_doi := by
  cases resp with
  | reqError => simp [get_citations] at he
  | response status parsed =>
    simp only [get_citations] at he
    by_cases hs : status = 200
    · rw [if_pos hs] at he
      cases parsed with
      | none => simp at he
      | some data =>
        simp only at he
        induction data with
        | nil => simp [citEdgesOfData] at he
        | cons r rs ih =>
          simp only [citEdgesOfData, List.mem_append] at he
          rcases he with h | h
          · cases r with
            | none => simp [citEdgesOfRecord] at h
            | some s =>
              simp only [citEdgesOfRecord] at h
              by_cases hse : s = ""
              · simp [hse] at h
              · rw [if_neg hse] at h
                exact citEdgesFromCandidates_no_self doi _ e h
          · exact ih h
    · rw [if_neg hs] at he
      simp at he

/-- Claim C1: for every publication identifier and every pair of raw API
responses, the edge list returned by processing the publication (the
union of reference-derived edges from `get_references` and
citation-derived edges from `get_citations`) contains no edge whose
`origin_doi` equals its `target_doi`; self-referential candidates are
dropped before accumulation, even when a raw record reports the
publication citing itself. -/
theorem process_doi_no_self_edges (doi sub_area : String) (refResp citResp : ApiResponse)
    (e : CitEdge) (he : e ∈ process_doi doi sub_area refResp citResp) :
    e.origin_doi ≠ e.target_doi := by
  simp only [process_doi, List.mem_append, List.mem_map] at he
  rcases he with ⟨e', h', rfl⟩ | ⟨e', h', rfl⟩
  · exact get_references_no_self doi refResp e' h'
  · exact get_citations_no_self doi citResp e' h'

/-- Witness for C1: a response whose single record reports the
publication `10.1/a` citing both itself and `10.1/b` yields exactly the
non-self edge, to which the theorem applies. -/
theorem process_doi_no_self_edges_witness :
    (⟨"10.1/a", "10.1/b", some "ai", none⟩ : CitEdge) ∈
        process_doi "10.1/a" "ai"
          (.response 200 (some [some "doi:10.1/a doi:10.1/b"])) .reqError ∧
      ("10.1/a" : String) ≠ "10.1/b" :=
  ⟨by decide,
   process_doi_no_self_edges "10.1/a" "ai"
     (.response 200 (some [some "doi:10.1/a doi:10.1/b"])) .reqError
     ⟨"10.1/a", "10.1/b", some "ai", none⟩ (by decide)⟩

/-! ## Deduplication (C2) -/

theorem count_dropDupSeen (seen l : List CitEdge) (e : CitEdge) :
    (dropDupSeen seen l).count e
      = if e ∈ seen then 0 else if e ∈ l then 1 else 0 := by
  induction l generalizing seen with
  | nil => simp [dropDupSeen]
  | cons a as ih =>
    simp only [dropDupSeen]
    by_cases ha : a ∈ seen
    · rw [if_pos ha, ih]
      by_cases he : e ∈ seen
      · simp [he]
      · have hne : e ≠ a := fun h => he (h ▸ ha)
        simp [he, List.mem_cons, hne]
    · rw [if_neg ha]
      by_cases hea : e = a
      · subst hea
        simp only [List.count_cons_self, ih]
        simp [ha, List.mem_cons]
      · rw [List.count_cons_of_ne hea, ih]
        by_cases he : e ∈ seen
        · simp [he, List.mem_cons, hea]
        · simp [he, List.mem_cons, hea]

/-- Claim C2: if the accumulated edge collection contains the same
`(origin_doi, target_doi, origin_sub_area, target_sub_area)` tuple two or
more times, the deduplicated edge list contains exactly one edge with
that tuple. -/
theorem drop_duplicates_exactly_one (l : List CitEdge) (e : CitEdge)
    (h : 2 ≤ l.count e) : (drop_duplicates l).count e = 1 := by
  have hm : e ∈ l := by
    have : 0 < l.count e := by omega
    exact List.count_pos_iff.mp this
  rw [drop_duplicates, count_dropDupSeen]
  simp [hm]

/-- Witness for C2: an edge fed twice (once as an outgoing-reference
derivation, once as an identical incoming-citation derivation) survives
deduplication exactly once. -/
theorem drop_duplicates_exactly_one_witness :
    2 ≤ ([⟨"10.1/a", "10.1/b", some "ai", none⟩, ⟨"10.1/a", "10.1/b", some "ai", none⟩] :
          List CitEdge).count ⟨"10.1/a", "10.1/b", some "ai", none⟩ ∧
      (drop_duplicates
          [⟨"10.1/a", "10.1/b", some "ai", none⟩,
           ⟨"10.1/a", "10.1/b", some "ai", none⟩]).count
        ⟨"10.1/a", "10.1/b", some "ai", none⟩ = 1 :=
  ⟨by decide,
   drop_duplicates_exactly_one
     [⟨"10.1/a", "10.1/b", some "ai", none⟩, ⟨"10.1/a", "10.1/b", some "ai", none⟩]
     ⟨"10.1/a", "10.1/b", some "ai", none⟩ (by decide)⟩

/-! ## Partial-failure isolation (C3) -/

theorem get_references_of_failed (doi : String) (r : ApiResponse)
    (h : queryFailed r = true) : get_references doi r = [] := by
  cases r with
  | reqError => rfl
  | response status parsed =>
    simp only [queryFailed, Bool.or_eq_true, bne_iff_ne, Option.isNone_iff_eq_none] at h
    simp only [get_references]
    by_cases hs : status = 200
    · rw [if_pos hs]
      rcases h with h | h
      · exact absurd hs h
      · rw [h]
    · rw [if_neg hs]

theorem get_citations_of_failed (doi : String) (r : ApiResponse)
    (h : queryFailed r = true) : get_citations doi r = [] := by
  cases r with
  | reqError => rfl
  | response status parsed =>
    simp only [queryFailed, Bool.or_eq_true, bne_iff_ne, Option.isNone_iff_eq_none] at h
    simp only [get_citations]
    by_cases hs : status = 200
    · rw [if_pos hs]
      rcases h with h | h
      · exact absurd hs h
      · rw [h]
    · rw [if_neg hs]

/-- Claim C3: `process_doi` is a total function of the two query
responses (no exception escapes the per-publication boundary), and when
one of the two sub-queries fails — by transport error, non-success
status, or JSON parse error — the result consists exactly of the edges
derived from the other query. -/
theorem process_doi_partial_failure (doi sub_area : String) (refResp citResp : ApiResponse) :
    (queryFailed refResp = true →
      process_doi doi sub_area refResp citResp
        = (get_citations doi citResp).map (setTargetSubArea sub_area)) ∧
    (queryFailed citResp = true →
      process_doi doi sub_area refResp citResp
        = (get_references doi refResp).map (setOriginSubArea sub_area)) := by
  constructor
  · intro h
    simp [process_doi, get_references_of_failed doi refResp h]
  · intro h
    simp [process_doi, get_citations_of_failed doi citResp h]

/-- Witness for C3: the references request raises while the citations
query succeeds; the collected edges are the citation-derived ones only. -/
theorem process_doi_partial_failure_witness :
    queryFailed ApiResponse.reqError = true ∧
      process_doi "10.1/a" "ai" ApiResponse.reqError
          (.response 200 (some [some "doi:10.1/b"]))
        = (get_citations "10.1/a" (.response 200 (some [some "doi:10.1/b"]))).map
            (setTargetSubArea "ai") :=
  ⟨by decide,
   (process_doi_partial_failure "10.1/a" "ai" ApiResponse.reqError
       (.response 200 (some [some "doi:10.1/b"]))).1 (by decide)⟩

/-! ## Pagination (C5) -/

/-- Claim C5: after the first page is fetched, the total number of pages
requested equals `ceil(total_count / per_page)` (with `total_count` read
from the first page's `meta.count`), defaulting to one page when the
count is zero or absent (an absent count is read as `0`), and the pages
are requested sequentially in ascending order `1, 2, ..., total_pages`. -/
theorem pagination_page_requests (total_count per_page : Nat) (hpp : 0 < per_page) :
    (pagesRequested total_count per_page).length
        = (if total_count = 0 then 1 else (total_count + per_page - 1) / per_page) ∧
      pagesRequested total_count per_page
        = List.range' 1 (totalPages total_count per_page) := by
  have h1 : 1 ≤ totalPages total_count per_page := by
    unfold totalPages
    split
    · exact le_refl 1
    · rename_i h
      refine (Nat.one_le_div_iff hpp).mpr ?_
      omega
  constructor
  · simp only [pagesRequested, List.length_cons, List.length_range']
    rw [show (totalPages total_count per_page - 1) + 1 = totalPages total_count per_page
          from by omega]
    rfl
  · obtain ⟨k, hk⟩ : ∃ k, totalPages total_count per_page = k + 1 :=
      ⟨totalPages total_count per_page - 1, by omega⟩
    rw [pagesRequested, hk, List.range'_succ]
    simp

/-- Witness for C5: `total_count = 95`, `per_page = 25` issues exactly 4
page requests, namely pages `1, 2, 3, 4`. -/
theorem pagination_page_requests_witness :
    0 < 25 ∧
      (pagesRequested 95 25).length = (if 95 = 0 then 1 else (95 + 25 - 1) / 25) ∧
      (pagesRequested 95 25).length = 4 ∧
      pagesRequested 95 25 = [1, 2, 3, 4] :=
  ⟨by decide, (pagination_page_requests 95 25 (by decide)).1, by decide, by decide⟩

/-! ## Sub-area graph partitioning (C4) -/

theorem edges_addNode (g : NxDiGraph) (id a : String) :
    (g.addNode id a).edges = g.edges := rfl

theorem edges_addEdge (g : NxDiGraph) (o t : String) :
    (g.addEdge o t).edges
      = if (o, t) ∈ g.edges then g.edges else g.edges ++ [(o, t)] := by
  unfold NxDiGraph.addEdge
  split_ifs <;> rfl

theorem mem_rowUpdate_iff (g : NxDiGraph) (row : EdgeRow) (p : String × String) :
    p ∈ (rowUpdate g row).edges ↔
      p ∈ g.edges ∨ p = (pyStrip row.origin_doi, pyStrip row.target_doi) := by
  simp only [rowUpdate]
  split_ifs <;>
    · rw [edges_addEdge]
      split_ifs with h
      · constructor
        · exact Or.inl
        · rintro (hp | rfl)
          · exact hp
          · exact h
      · simp [List.mem_append, edges_addNode]

theorem mem_updateArea_iff (gs : String → NxDiGraph) (area : String) (row : EdgeRow)
    (a : String) (p : String × String) :
    p ∈ ((updateArea gs area row) a).edges ↔
      (p ∈ (gs a).edges ∨
        (a = area ∧ p = (pyStrip row.origin_doi, pyStrip row.target_doi))) := by
  unfold updateArea
  by_cases h : a = area
  · subst h
    simp [mem_rowUpdate_iff]
  · simp [h]

theorem updateArea_other (gs : String → NxDiGraph) (area : String) (row : EdgeRow)
    (a : String) (h : a ≠ area) : (updateArea gs area row) a = gs a := by
  unfold updateArea
  rw [if_neg h]

/-- Claim C4: for every CSV row (with a blank `origin_sub_area` or
`target_sub_area` replaced by `"unknown"` by `normArea`), and every
configured sub-area `S`, processing the row adds the edge
`(origin_doi, target_doi)` (whitespace-stripped) to sub-area `S`'s graph
if and only if the row's normalised origin sub-area is `S` or its
normalised target sub-area is `S`; and a name not in the configured list
(in particular the sentinel `"unknown"` when it is not configured) keys
no graph: the graph assignment is unchanged at every non-configured
name, so an edge can enter zero, one, or two of the configured graphs. -/
theorem subarea_graph_membership (areas : List String) (gs : String → NxDiGraph)
    (row : EdgeRow) :
    (∀ S, S ∈ areas →
      ((pyStrip row.origin_doi, pyStrip row.target_doi) ∈ ((addRow areas gs row) S).edges ↔
        ((pyStrip row.origin_doi, pyStrip row.target_doi) ∈ (gs S).edges ∨
          normArea row.origin_sub_area = S ∨ normArea row.target_sub_area = S))) ∧
    (∀ a, a ∉ areas → (addRow areas gs row) a = gs a) := by
  constructor
  · intro S hS
    unfold addRow
    by_cases h1 : normArea row.origin_sub_area ∈ areas <;>
      by_cases h2 : normArea row.target_sub_area ∈ areas ∧
        normArea row.target_sub_area ≠ normArea row.origin_sub_area
    · rw [if_pos h1, if_pos h2]
      simp only [mem_updateArea_iff]
      by_cases hso : S = normArea row.origin_sub_area <;>
        by_cases hst : S = normArea row.target_sub_area <;>
          · simp [hso, hst]
            all_goals tauto
    · rw [if_pos h1, if_neg h2]
      simp only [mem_updateArea_iff]
      by_cases hso : S = normArea row.origin_sub_area
      · simp [hso]
      · -- S ≠ osa; if S = tsa then by h2 either tsa ∉ areas (impossible, S ∈ areas)
        -- or tsa = osa (then S = osa, contradiction)
        by_cases hst : S = normArea row.target_sub_area
        · rcases not_and_or.mp h2 with h | h
          · exact absurd (hst ▸ hS) h
          · rw [not_not] at h
            exact absurd (hst.trans h) hso
        · have hso' : normArea row.origin_sub_area ≠ S := fun h => hso h.symm
          have hst' : normArea row.target_sub_area ≠ S := fun h => hst h.symm
          simp [hso, hso', hst']
    · rw [if_neg h1, if_pos h2]
      simp only [mem_updateArea_iff]
      by_cases hst : S = normArea row.target_sub_area
      · simp [hst]
      · have hso' : normArea row.origin_sub_area ≠ S := fun h => h1 (h ▸ hS)
        have hst' : normArea row.target_sub_area ≠ S := fun h => hst h.symm
        simp [hst, hso', hst']
    · rw [if_neg h1, if_neg h2]
      have hso' : normArea row.origin_sub_area ≠ S := fun h => h1 (h ▸ hS)
      by_cases hst : S = normArea row.target_sub_area
      · rcases not_and_or.mp h2 with h | h
        · exact absurd (hst ▸ hS) h
        · rw [not_not] at h
          exact absurd (hst.trans h) (fun hh => hso' hh.symm)
      · have hst' : normArea row.target_sub_area ≠ S := fun h => hst h.symm
        simp [hso', hst']
  · intro a ha
    unfold addRow
    have hne1 : normArea row.origin_sub_area ∈ areas → a ≠ normArea row.origin_sub_area :=
      fun hm heq => ha (heq ▸ hm)
    have hne2 : normArea row.target_sub_area ∈ areas → a ≠ normArea row.target_sub_area :=
      fun hm heq => ha (heq ▸ hm)
    split_ifs with h1 h2 h2
    · rw [updateArea_other _ _ _ _ (hne2 h1.1), updateArea_other _ _ _ _ (hne1 h2)]
    · rw [updateArea_other _ _ _ _ (hne2 h1.1)]
    · rw [updateArea_other _ _ _ _ (hne1 h2)]
    · rfl

/-- Witness for C4: a row tagged `ai`/`se` enters both the `ai` and `se`
graphs and no other (here checked for the `ai` graph of the configured
`AREAS` list, starting from the initial empty graphs), and the
unconfigured name `"unknown"` keys no graph. -/
theorem subarea_graph_membership_witness :
    ("ai" ∈ AREAS ∧ "unknown" ∉ AREAS) ∧
      (((pyStrip "10.1/a", pyStrip "10.1/b") ∈
          ((addRow AREAS emptyGraphs ⟨"10.1/a", "10.1/b", "ai", "se"⟩) "ai").edges) ↔
        ((pyStrip "10.1/a", pyStrip "10.1/b") ∈ (emptyGraphs "ai").edges ∨
          normArea "ai" = "ai" ∨ normArea "se" = "ai")) ∧
      (addRow AREAS emptyGraphs ⟨"10.1/a", "10.1/b", "ai", "se"⟩) "unknown"
        = emptyGraphs "unknown" :=
  ⟨⟨by decide, by decide⟩,
   (subarea_graph_membership AREAS emptyGraphs
       ⟨"10.1/a", "10.1/b", "ai", "se"⟩).1 "ai" (by decide),
   (subarea_graph_membership AREAS emptyGraphs
       ⟨"10.1/a", "10.1/b", "ai", "se"⟩).2 "unknown" (by decide)⟩

/-! ## First-write-wins node attributes (C8) -/

theorem find?_append_of_some {α : Type} (p : α → Bool) (l₁ l₂ : List α) (a : α)
    (h : l₁.find? p = some a) : (l₁ ++ l₂).find? p = some a := by
  induction l₁ with
  | nil => simp [List.find?] at h
  | cons x xs ih =>
    rw [List.cons_append]
    by_cases hp : p x
    · rw [List.find?_cons_of_pos _ hp] at h ⊢
      exact h
    · rw [List.find?_cons_of_neg _ hp] at h ⊢
      exact ih h

theorem attr_addNode_of_some (g : NxDiGraph) (id a x v : String)
    (h : g.attr x = some v) : (g.addNode id a).attr x = some v := by
  simp only [NxDiGraph.attr, NxDiGraph.addNode] at h ⊢
  rcases Option.map_eq_some'.mp h with ⟨pr, hpr, hv⟩
  rw [find?_append_of_some _ _ _ _ hpr]
  simp [hv]

theorem attr_addEdge (g : NxDiGraph) (o t x : String) :
    (g.addEdge o t).attr x = g.attr x := by
  unfold NxDiGraph.addEdge NxDiGraph.attr
  split_ifs <;> rfl

theorem attr_rowUpdate_of_some (g : NxDiGraph) (row : EdgeRow) (x v : String)
    (h : g.attr x = some v) : (rowUpdate g row).attr x = some v := by
  simp only [rowUpdate]
  rw [attr_addEdge]
  split_ifs with h1 h2 h2
  · exact h
  · exact attr_addNode_of_some _ _ _ _ _ h
  · exact attr_addNode_of_some _ _ _ _ _ h
  · exact attr_addNode_of_some _ _ _ _ _ (attr_addNode_of_some _ _ _ _ _ h)

theorem attr_updateArea_of_some (gs : String → NxDiGraph) (area : String) (row : EdgeRow)
    (a x v : String) (h : (gs a).attr x = some v) :
    ((updateArea gs area row) a).attr x = some v := by
  unfold updateArea
  split_ifs with ha
  · exact attr_rowUpdate_of_some _ _ _ _ (ha ▸ h)
  · exact h

theorem attr_addRow_of_some (areas : List String) (gs : String → NxDiGraph) (row : EdgeRow)
    (a x v : String) (h : (gs a).attr x = some v) :
    ((addRow areas gs row) a).attr x = some v := by
  unfold addRow
  split_ifs with h1 h2 h2
  · exact attr_updateArea_of_some _ _ _ _ _ _ (attr_updateArea_of_some _ _ _ _ _ _ h)
  · exact attr_updateArea_of_some _ _ _ _ _ _ h
  · exact attr_updateArea_of_some _ _ _ _ _ _ h
  · exact h

theorem attr_foldl_addRow_of_some (areas : List String) (rows : List EdgeRow)
    (gs : String → NxDiGraph) (a x v : String) (h : (gs a).attr x = some v) :
    ((rows.foldl (addRow areas) gs) a).attr x = some v := by
  induction rows generalizing gs with
  | nil => exact h
  | cons r rs ih =>
    rw [List.foldl_cons]
    exact ih _ (attr_addRow_of_some _ _ _ _ _ _ h)

/-- Claim C8: node attribute assignment is first-write-only.  If after
processing a first batch of rows a node carries the `sub_area` attribute
`v` in some sub-area graph, then after processing any further rows (in
particular rows that would re-add the same node id as either endpoint
with a different sub-area value) the node still carries `v`: the
attribute assigned at first insertion is never overwritten. -/
theorem node_attr_first_write_wins (rows1 rows2 : List EdgeRow) (areas : List String)
    (S id v : String) (h : (create_subarea_graphs rows1 areas S).attr id = some v) :
    (create_subarea_graphs (rows1 ++ rows2) areas S).attr id = some v := by
  unfold create_subarea_graphs at h ⊢
  rw [List.foldl_append]
  exact attr_foldl_addRow_of_some areas rows2 _ S id v h

/-- Witness for C8: node `10.1/n` is first inserted into the `ai` graph
with attribute `ai`; a later row re-adds it as a target with sub-area
`se`, and the attribute remains `ai`. -/
theorem node_attr_first_write_wins_witness :
    (create_subarea_graphs [⟨"10.1/n", "10.1/m", "ai", ""⟩] AREAS "ai").attr "10.1/n"
        = some "ai" ∧
      (create_subarea_graphs
          ([⟨"10.1/n", "10.1/m", "ai", ""⟩] ++ [⟨"10.1/x", "10.1/n", "ai", "se"⟩])
          AREAS "ai").attr "10.1/n" = some "ai" :=
  ⟨by decide,
   node_attr_first_write_wins [⟨"10.1/n", "10.1/m", "ai", ""⟩]
     [⟨"10.1/x", "10.1/n", "ai", "se"⟩] AREAS "ai" "10.1/n" "ai" (by decide)⟩

/-! ## Bidirectional-pair detection (C9) -/

/-- Claim C9: the consistency checker loads the edge file into a set of
whitespace-trimmed `(origin, target)` pairs and reports each
bidirectional pair exactly once (the reported pairs form a `Finset`) in
sorted canonical form: every reported pair is sorted and corresponds to
two mutually citing edges, every mutually citing pair is reported (via
its canonical form), the concrete edge set `{(A,B), (B,A), (C,D)}`
reports exactly the single pair `(A,B)`, and when no bidirectional pair
exists the checker emits the explicit "none found" report rather than no
output. -/
theorem pyStrLe_total (s t : String) (h : pyStrLe s t = false) : pyStrLe t s = true := by
  unfold pyStrLe at h ⊢
  simp only [Bool.not_eq_false'] at h
  simp only [Bool.not_eq_true']
  generalize s.toList = a at h ⊢
  generalize t.toList = b at h ⊢
  induction a generalizing b with
  | nil =>
    cases b with
    | nil => simp [pyStrLt]
    | cons y ys => simp [pyStrLt] at h
  | cons x xs ih =>
    cases b with
    | nil => simp [pyStrLt]
    | cons y ys =>
      simp only [pyStrLt] at h ⊢
      split_ifs at h ⊢ <;> first | rfl | omega | (apply ih; assumption)

theorem checker_bidirectional_pairs :
    (checkerReport [("A", "B"), ("B", "A"), ("C", "D")]
        = .found {("A", "B")}) ∧
      (∀ E : Finset (String × String), ∀ p ∈ twoWayEdges E,
        pyStrLe p.1 p.2 = true ∧ (p.1, p.2) ∈ E ∧ (p.2, p.1) ∈ E) ∧
      (∀ E : Finset (String × String), ∀ a b, (a, b) ∈ E → (b, a) ∈ E →
        sortPair (a, b) ∈ twoWayEdges E) ∧
      (∀ rows : List (String × String), twoWayEdges (loadEdges rows) = ∅ →
        checkerReport rows = .noneFound) := by
  refine ⟨by decide, ?_, ?_, ?_⟩
  · intro E p hp
    simp only [twoWayEdges, Finset.mem_image, Finset.mem_filter] at hp
    rcases hp with ⟨e, ⟨heE, hrev⟩, hsort⟩
    unfold sortPair at hsort
    split_ifs at hsort with hle
    · subst hsort
      exact ⟨hle, heE, hrev⟩
    · subst hsort
      exact ⟨pyStrLe_total _ _ (Bool.not_eq_true _ ▸ hle), hrev, heE⟩
  · intro E a b hab hba
    simp only [twoWayEdges]
    exact Finset.mem_image_of_mem sortPair (Finset.mem_filter.mpr ⟨hab, hba⟩)
  · intro rows h
    unfold checkerReport
    rw [h]
    simp

/-- Witness for C9: the completeness direction applied to the concrete
mutually citing pair, and the "none found" report on a file with no
bidirectional pair. -/
theorem checker_bidirectional_pairs_witness :
    (("A", "B") ∈ loadEdges [("A", "B"), ("B", "A"), ("C", "D")] ∧
      ("B", "A") ∈ loadEdges [("A", "B"), ("B", "A"), ("C", "D")] ∧
      sortPair ("A", "B") ∈ twoWayEdges (loadEdges [("A", "B"), ("B", "A"), ("C", "D")])) ∧
      (twoWayEdges (loadEdges [("C", "D")]) = ∅ ∧
        checkerReport [("C", "D")] = .noneFound) :=
  ⟨⟨by decide, by decide,
    checker_bidirectional_pairs.2.2.1 (loadEdges [("A", "B"), ("B", "A"), ("C", "D")])
      "A" "B" (by decide) (by decide)⟩,
   ⟨by decide, checker_bidirectional_pairs.2.2.2 [("C", "D")] (by decide)⟩⟩

/-! ## Identifier normalisation (C7) -/

theorem lowerL_cons (c : Char) (cs : List Char) :
    lowerL (c :: cs) = Char.toLower c :: lowerL cs := rfl

theorem findDoiMatch_eq_none (l : List Char)
    (h : containsSeq doiMarker (lowerL l) = false) : findDoiMatch l = none := by
  induction l with
  | nil => rfl
  | cons c cs ih =>
    rw [lowerL_cons] at h
    simp only [containsSeq, Bool.or_eq_false_iff] at h
    simp only [findDoiMatch, lowerL_cons]
    rw [h.1]
    simp only [Bool.false_eq_true, if_false]
    exact ih h.2

/-- Counterexample to C7 as stated: the string `" x "` does not start
with the resolver URL prefix and contains no `doi:` marker, yet
`extract_doi` does not return it unchanged — the function strips
surrounding whitespace first. -/
theorem extract_doi_unchanged_counterexample :
    urlMarker.isPrefixOf (lowerL (" x " : String).toList) = false ∧
      containsSeq doiMarker (lowerL (" x " : String).toList) = false ∧
      extract_doi " x " = "x" ∧ extract_doi " x " ≠ " x " :=
  ⟨by decide, by decide, by decide, by decide⟩

/-- Claim C7 (amended): single-identifier normalisation is idempotent on
already-normalised inputs once whitespace-trimming is accounted for: for
every identifier string that equals its own `strip()` (no surrounding
whitespace), does not start (case-insensitively) with the resolver URL
prefix, and contains no case-insensitive `doi:` marker, `extract_doi`
returns it unchanged.  (The original claim lacked the trimming
hypothesis, which the counterexample forces: `extract_doi` strips its
input before the pass-through.) -/
theorem extract_doi_unchanged (s : String) (htrim : pyStrip s = s)
    (hurl : urlMarker.isPrefixOf (lowerL s.toList) = false)
    (hdoi : containsSeq doiMarker (lowerL s.toList) = false) :
    extract_doi s = s := by
  have ht : pyStripL s.toList = s.toList := congrArg String.toList htrim
  simp only [extract_doi, ht, hurl, Bool.false_eq_true, if_false]
  rw [findDoiMatch_eq_none s.toList hdoi]
  rfl

/-- Witness for C7 (amended): a bare DOI is returned unchanged. -/
theorem extract_doi_unchanged_witness :
    pyStrip "10.1234/abc" = "10.1234/abc" ∧
      urlMarker.isPrefixOf (lowerL ("10.1234/abc" : String).toList) = false ∧
      containsSeq doiMarker (lowerL ("10.1234/abc" : String).toList) = false ∧
      extract_doi "10.1234/abc" = "10.1234/abc" :=
  ⟨by decide, by decide, by decide,
   extract_doi_unchanged "10.1234/abc" (by decide) (by decide) (by decide)⟩

/-! ## Multi-identifier extraction (C6) -/

theorem dropWhile_eq_self_of_all (p : Char → Bool) (t : List Char)
    (h : ∀ c ∈ t, p c = false) : t.dropWhile p = t := by
  cases t with
  | nil => rfl
  | cons a as =>
    have ha : ¬ p a = true := by simp [h a (List.mem_cons_self a as)]
    rw [List.dropWhile_cons_of_neg ha]

theorem pyStripL_eq_self (t : List Char) (h : ∀ c ∈ t, pyIsSpace c = false) :
    pyStripL t = t := by
  have h2 : ∀ c ∈ t.reverse, pyIsSpace c = false :=
    fun c hc => h c (List.mem_reverse.mp hc)
  unfold pyStripL
  rw [dropWhile_eq_self_of_all _ _ h, dropWhile_eq_self_of_all _ _ h2, List.reverse_reverse]

theorem pySplitWsAux_no_space (l : List Char) :
    ∀ acc : List Char, (∀ c ∈ acc, pyIsSpace c = false) →
      ∀ t ∈ pySplitWsAux l acc, ∀ c ∈ t, pyIsSpace c = false := by
  induction l with
  | nil =>
    intro acc hacc t ht
    simp only [pySplitWsAux] at ht
    split_ifs at ht
    · simp at ht
    · rw [List.mem_singleton] at ht
      subst ht
      intro c hc
      exact hacc c (List.mem_reverse.mp hc)
  | cons x xs ih =>
    intro acc hacc t ht
    simp only [pySplitWsAux] at ht
    split_ifs at ht with h1 h2
    · exact ih [] (by simp) t ht
    · rcases List.mem_cons.mp ht with rfl | ht'
      · intro c hc
        exact hacc c (List.mem_reverse.mp hc)
      · exact ih [] (by simp) t ht'
    · refine ih (x :: acc) ?_ t ht
      intro c hc
      rcases List.mem_cons.mp hc with rfl | hc'
      · simpa using h1
      · exact hacc c hc'

theorem extractDoisTokens_map_eq (ts : List (List Char))
    (h : ∀ t ∈ ts, ∀ c ∈ t, pyIsSpace c = false) :
    (extractDoisTokens ts).map String.mk
      = ts.filterMap (fun t =>
          if doiMarker.isPrefixOf (lowerL t) then
            some (String.mk (pyStripL (afterLastOcc doiMarker t)))
          else if urlMarker.isPrefixOf (lowerL t) then
            some (String.mk (pyStripL (afterLastOcc urlMarker t)))
          else none) := by
  induction ts with
  | nil => rfl
  | cons t ts ih =>
    have ht : pyStripL t = t := pyStripL_eq_self t (h t (List.mem_cons_self t ts))
    have hts : ∀ u ∈ ts, ∀ c ∈ u, pyIsSpace c = false :=
      fun u hu => h u (List.mem_cons_of_mem t hu)
    simp only [extractDoisTokens, ht, List.filterMap_cons]
    by_cases hd : doiMarker.isPrefixOf (lowerL t) = true
    · simp only [hd, if_true, List.map_cons]
      rw [ih hts]
    · by_cases hu : urlMarker.isPrefixOf (lowerL t) = true
      · simp only [hd, hu, Bool.false_eq_true, if_false, if_true, List.map_cons]
        rw [ih hts]
      · simp only [hd, hu, Bool.false_eq_true, if_false]
        exact ih hts

/-- Counterexample to C6 as stated: the token `DOI:10.1/x` begins
case-insensitively with the `doi:` scheme marker, so it is accepted, yet
it is returned with the prefix NOT stripped off: the in-token split on
the marker is case-sensitive even though acceptance is case-insensitive. -/
theorem extract_dois_counterexample :
    doiMarker.isPrefixOf (lowerL ("DOI:10.1/x" : String).toList) = true ∧
      extract_dois "DOI:10.1/x" = ["DOI:10.1/x"] ∧
      extract_dois "DOI:10.1/x" ≠ ["10.1/x"] :=
  ⟨by decide, by decide, by decide⟩

/-- Claim C6 (amended): for every input string, `extract_dois` splits it
on whitespace and returns exactly the tokens that begin
(case-insensitively) with a recognised scheme marker — `doi:` or
`https://doi.org/` — each returned as the whitespace-trimmed text after
the last exact-lowercase occurrence of its marker (the prefix-stripped
token when the marker occurs exactly once, at the start, in lowercase;
the whole token when the marker occurs only in another letter case);
tokens without a recognised marker are silently discarded, and no input
causes an error.  (The original claim's unconditional "with that scheme
prefix stripped off" is corrected as forced by the counterexample.) -/
theorem extract_dois_spec_correct (s : String) : extract_dois s = extractDoisSpec s := by
  unfold extract_dois extractDoisSpec
  exact extractDoisTokens_map_eq (pySplitWsL s.toList)
    (pySplitWsAux_no_space s.toList [] (by simp))

/-! ## Record normalisation defaults (C10) -/

theorem isStrJ_exists (v : Json) (h : isStrJ v = true) : ∃ s, v = .str s := by
  cases v <;> simp_all [isStrJ]

theorem isObjJ_exists (v : Json) (h : isObjJ v = true) : ∃ g, v = .obj g := by
  cases v <;> simp_all [isObjJ]

theorem primaryTopicOk_destruct (v : Json) (h : primaryTopicOk v = true) :
    ∃ g, v = .obj g ∧ optFieldOk (lookupField g "subfield") isObjJ = true := by
  cases v <;> simp_all [primaryTopicOk]

theorem refWorksOk_destruct (v : Json) (h : refWorksOk v = true) :
    ∃ l, v = .arr l ∧ ∀ j ∈ l, isStrJ j = true := by
  cases v <;> simp_all [refWorksOk, List.all_eq_true]

theorem idField_str (o : Option Json) (h : optFieldOk o isStrJ = true) :
    ∃ s, o.getD (.str "") = .str s ∧ (o = none → s = "") := by
  cases o with
  | none => exact ⟨"", rfl, fun _ => rfl⟩
  | some v =>
    obtain ⟨s, rfl⟩ := isStrJ_exists v (by simpa [optFieldOk] using h)
    exact ⟨s, rfl, by simp⟩

theorem doiField_str (o : Option Json)
    (h : optFieldOk o (fun v => jsonFalsy v || isStrJ v) = true) :
    ∃ s, (if jsonFalsy (o.getD .null) then Json.str "" else o.getD .null) = .str s ∧
      (o = none → s = "") := by
  cases o with
  | none => exact ⟨"", by simp [jsonFalsy], fun _ => rfl⟩
  | some v =>
    by_cases hf : jsonFalsy v = true
    · exact ⟨"", by simp [hf], by simp⟩
    · have hs : isStrJ v = true := by
        have h' : (jsonFalsy v || isStrJ v) = true := by simpa [optFieldOk] using h
        simpa [hf] using h'
      obtain ⟨s, rfl⟩ := isStrJ_exists v hs
      exact ⟨s, by simp [hf], by simp⟩

theorem ptField_sdn (o : Option Json) (h : optFieldOk o primaryTopicOk = true) :
    ∃ sf sdn, pyGet (o.getD (.obj [])) "subfield" (.obj []) = some sf ∧
      pyGet sf "display_name" (.str "") = some sdn ∧
      (o = none → sdn = .str "") := by
  cases o with
  | none => exact ⟨.obj [], .str "", rfl, rfl, fun _ => rfl⟩
  | some v =>
    obtain ⟨g, rfl, hsf⟩ := primaryTopicOk_destruct v (by simpa [optFieldOk] using h)
    rcases hg : lookupField g "subfield" with _ | w
    · exact ⟨.obj [], .str "", by simp [pyGet, hg], rfl, by simp⟩
    · have hw : isObjJ w = true := by simpa [optFieldOk, hg] using hsf
      obtain ⟨hh, rfl⟩ := isObjJ_exists w hw
      exact ⟨.obj hh, (lookupField hh "display_name").getD (.str ""),
        by simp [pyGet, hg], rfl, by simp⟩

theorem stripRefWorks_exists (l : List Json) (h : ∀ j ∈ l, isStrJ j = true) :
    ∃ out, stripRefWorks l = some out := by
  induction l with
  | nil => exact ⟨[], rfl⟩
  | cons j js ih =>
    have htail : ∀ u ∈ js, isStrJ u = true := fun u hu => h u (List.mem_cons_of_mem j hu)
    obtain ⟨s, rfl⟩ := isStrJ_exists j (h j (List.mem_cons_self j js))
    obtain ⟨out, hout⟩ := ih htail
    exact ⟨removePrefixStr s "https://openalex.org/" :: out,
      by simp [stripRefWorks, asStr, hout]⟩

theorem pyGet_obj (fields : List (String × Json)) (key : String) (dflt : Json) :
    pyGet (.obj fields) key dflt = some ((lookupField fields key).getD dflt) := rfl

theorem rwField_list (o : Option Json) (h : optFieldOk o refWorksOk = true) :
    ∃ elems out, pyIter (o.getD (.arr [])) = some elems ∧
      stripRefWorks elems = some out ∧ (o = none → out = []) := by
  cases o with
  | none => exact ⟨[], [], rfl, rfl, fun _ => rfl⟩
  | some v =>
    obtain ⟨l, rfl, hl⟩ := refWorksOk_destruct v (by simpa [optFieldOk] using h)
    obtain ⟨out, hout⟩ := stripRefWorks_exists l hl
    exact ⟨l, out, rfl, hout, by simp⟩

/-- Counterexample to C10 as stated: the record `{"primary_topic": null}`
has a present but malformed optional field; instead of resolving it to a
default, both `parse_results` variants raise (Python `None.get(...)`
raises `AttributeError`, modelled as result `none`). -/
theorem parse_results_malformed_counterexample :
    parse_work_dc (.obj [("primary_topic", Json.null)]) = none ∧
      parse_work_ex (.obj [("primary_topic", Json.null)]) = none :=
  ⟨rfl, rfl⟩

/-- Claim C10 (amended): record normalisation never raises on incomplete
input: for every raw work record that is a JSON object whose *present*
fields have the types the code expects, both `parse_results` variants
produce a canonical record, in which each *missing* optional field (id,
doi, title, primary topic/subfield, referenced-works count and list)
resolves to a default — empty string, zero, or empty sequence — rather
than an error.  (The original claim also promised defaulting for
malformed present fields; the counterexample shows that a wrongly-typed
present field makes the code raise instead.) -/
theorem parse_results_defaults (fs : List (String × Json)) :
    (wellTypedWorkDC fs = true →
      ∃ r : WorkRecordDC, parse_work_dc (.obj fs) = some r ∧
        (lookupField fs "id" = none → r.id = "") ∧
        (lookupField fs "doi" = none → r.doi = "") ∧
        (lookupField fs "title" = none → r.title = .str "") ∧
        (lookupField fs "primary_topic" = none → r.subfield_display_name = .str "") ∧
        (lookupField fs "referenced_works_count" = none → r.referenced_works_count = .num 0) ∧
        (lookupField fs "referenced_works" = none → r.referenced_works = .arr []) ∧
        (lookupField fs "cited_by_api_url" = none → r.cited_by_api_url = .str "")) ∧
    (wellTypedWorkEx fs = true →
      ∃ r : WorkRecordEx, parse_work_ex (.obj fs) = some r ∧
        (lookupField fs "id" = none → r.id = "") ∧
        (lookupField fs "doi" = none → r.doi = "") ∧
        (lookupField fs "title" = none → r.title = .str "") ∧
        (lookupField fs "primary_topic" = none → r.subfield_display_name = .str "") ∧
        (lookupField fs "referenced_works_count" = none → r.referenced_works_count = .num 0) ∧
        (lookupField fs "referenced_works" = none → r.referenced_works = ([] : List String))) := by
  constructor
  · intro h
    simp only [wellTypedWorkDC, Bool.and_eq_true] at h
    obtain ⟨⟨hid, hdoi⟩, hpt⟩ := h
    obtain ⟨ids, hids, hids0⟩ := idField_str _ hid
    obtain ⟨dois, hdois, hdois0⟩ := doiField_str _ hdoi
    obtain ⟨sf, sdn, hsf, hsdn, hsdn0⟩ := ptField_sdn _ hpt
    refine ⟨⟨removePrefixStr ids "https://openalex.org/",
        removePrefixStr dois "https://doi.org/",
        (lookupField fs "title").getD (.str ""), sdn,
        (lookupField fs "referenced_works_count").getD (.num 0),
        (lookupField fs "referenced_works").getD (.arr []),
        (lookupField fs "cited_by_api_url").getD (.str "")⟩,
      ?_, ?_, ?_, ?_, ?_, ?_, ?_, ?_⟩
    · simp [parse_work_dc, pyGet_obj, hids, hdois, hsf, hsdn, asStr]
    · intro heq
      rw [hids0 heq]
      rfl
    · intro heq
      rw [hdois0 heq]
      rfl
    · intro heq
      rw [heq]
      rfl
    · intro heq
      exact hsdn0 heq
    · intro heq
      rw [heq]
      rfl
    · intro heq
      rw [heq]
      rfl
    · intro heq
      rw [heq]
      rfl
  · intro h
    simp only [wellTypedWorkEx, wellTypedWorkDC, Bool.and_eq_true] at h
    obtain ⟨⟨⟨hid, hdoi⟩, hpt⟩, hrw⟩ := h
    obtain ⟨ids, hids, hids0⟩ := idField_str _ hid
    obtain ⟨dois, hdois, hdois0⟩ := doiField_str _ hdoi
    obtain ⟨sf, sdn, hsf, hsdn, hsdn0⟩ := ptField_sdn _ hpt
    obtain ⟨elems, out, helems, hout, hout0⟩ := rwField_list _ hrw
    refine ⟨⟨removePrefixStr ids "https://openalex.org/",
        removePrefixStr dois "https://doi.org/",
        (lookupField fs "title").getD (.str ""), sdn,
        (lookupField fs "referenced_works_count").getD (.num 0),
        out, []⟩,
      ?_, ?_, ?_, ?_, ?_, ?_, ?_⟩
    · simp [parse_work_ex, pyGet_obj, hids, hdois, hsf, hsdn, helems, hout, asStr]
    · intro heq
      rw [hids0 heq]
      rfl
    · intro heq
      rw [hdois0 heq]
      rfl
    · intro heq
      rw [heq]
      rfl
    · intro heq
      exact hsdn0 heq
    · intro heq
      rw [heq]
      rfl
    · intro heq
      exact hout0 heq

/-- Witness for C10 (amended): a record carrying only a title is
well-typed; both variants normalise it without error, defaulting the
missing identifier and the missing referenced-works list. -/
theorem parse_results_defaults_witness :
    wellTypedWorkDC [("title", Json.str "T")] = true ∧
      wellTypedWorkEx [("title", Json.str "T")] = true ∧
      (∃ r : WorkRecordDC,
        parse_work_dc (.obj [("title", Json.str "T")]) = some r ∧ r.id = "") ∧
      (∃ r : WorkRecordEx,
        parse_work_ex (.obj [("title", Json.str "T")]) = some r ∧
          r.referenced_works = ([] : List String)) :=
  ⟨by decide, by decide,
   by
    obtain ⟨r, hparse, h1, _⟩ :=
      (parse_results_defaults [("title", Json.str "T")]).1 (by decide)
    exact ⟨r, hparse, h1 (by rfl)⟩,
   by
    obtain ⟨r, hparse, _, _, _, _, _, h6⟩ :=
      (parse_results_defaults [("title", Json.str "T")]).2 (by decide)
    exact ⟨r, hparse, h6 (by rfl)⟩⟩
